import Mathlib

/-!
Verification of the Gmail MIME decoding pipeline and batch protocol client
of this repository, as a shallow embedding in Lean 4.

Conventions of the embedding:
* JavaScript strings are modelled as `Str := List Char`; `js` converts a
  Lean string literal.
* JavaScript `undefined`/absent values are `Option`.
* Thrown `Error(msg)` values and err-style `[null, Error]` results are both
  modelled as `Except JsError _` with `JsError.error msg`; a zod schema
  validation failure is `JsError.zod issues` where `issues` lists the
  (field, rejected value) pairs, in schema field order.
* `Buffer.from(s, "base64")` is modelled per Node semantics: the decoder
  accepts both the standard and the URL-safe RFC 4648 alphabets and skips
  every character outside them (including `=` padding); a trailing group of
  2 or 3 sextets yields 1 or 2 bytes, a lone trailing sextet yields nothing.
  `.toString()` is UTF-8 decoding with U+FFFD replacement.
* Bounded scanning loops carry an explicit fuel argument so that every
  definition is structurally recursive and kernel-computable; fuel is always
  instantiated large enough that the exhaustion branch is unreachable.
-/

/-- A JavaScript string, as its list of UTF-16-agnostic characters. -/
abbrev Str := List Char

/-- Shorthand for writing embedded JavaScript string literals. -/
def js (s : String) : Str := s.toList

/-- JavaScript Error values and zod validation failures, as produced by the
pipeline under verification. -/
inductive JsError where
  | error (msg : Str)
  | zod (issues : List (Str × Str))
  deriving DecidableEq, Repr

/-- ASCII lower-casing of one character (the pipeline only lower-cases
ASCII header names and values). -/
def lowChar (c : Char) : Char :=
  if 'A' ≤ c ∧ c ≤ 'Z' then Char.ofNat (c.toNat + 32) else c

/-- Model of JavaScript String.prototype.toLowerCase on ASCII data. -/
def lowStr (s : Str) : Str := s.map lowChar

/-- JavaScript whitespace recognised by String.prototype.trim (the subset
relevant to this code base). -/
def isWs (c : Char) : Bool :=
  c = ' ' || c = '\t' || c = '\n' || c = '\r' || c = '\x0b' || c = '\x0c'

/-- Model of String.prototype.trim. -/
def jsTrim (s : Str) : Str :=
  ((s.dropWhile isWs).reverse.dropWhile isWs).reverse

/-- Characters before the first occurrence of `c` (JS `s.split(c)[0]` for a
one-character separator). -/
def takeBeforeChar (c : Char) (s : Str) : Str := s.takeWhile (· ≠ c)

/-- Scanner for String.prototype.indexOf: position of the first occurrence
of `pat` in `rest`, offset by `i`. -/
def idxAux (pat : Str) : Str → Nat → Option Nat
  | [], i => if pat.isEmpty then some i else none
  | c :: cs, i =>
    if pat.isPrefixOf (c :: cs) then some i else idxAux pat cs (i + 1)

/-- Model of `s.indexOf(pat)`, as an `Option` instead of `-1`. -/
def indexOfSub (s pat : Str) : Option Nat := idxAux pat s 0

/-- Model of `s.indexOf(pat, from)`. -/
def indexOfSubFrom (s pat : Str) (start : Nat) : Option Nat :=
  (idxAux pat (s.drop start) 0).map (· + start)

/-- Split worker; consumes at least one character per step, so fuel equal to
the string length is sufficient. -/
def splitAux (sep : Str) : Nat → Str → Str → List Str
  | _, [], acc => [acc.reverse]
  | 0, rest, acc => [acc.reverse ++ rest]
  | fuel + 1, c :: cs, acc =>
    if sep.isPrefixOf (c :: cs) then
      acc.reverse :: splitAux sep fuel (cs.drop (sep.length - 1)) []
    else
      splitAux sep fuel cs (c :: acc)

/-- Model of String.prototype.split with a non-empty string separator (the
pipeline never splits on the empty string). -/
def splitOnSub (s sep : Str) : List Str :=
  if sep.isEmpty then [s] else splitAux sep (s.length + 1) s []

/-- Case-insensitive prefix test (the semantics of matching a literal
pattern under a JS regex `i` flag, for ASCII). -/
def startsWithCi (pat s : Str) : Bool :=
  (lowStr pat).isPrefixOf (lowStr (s.take pat.length))

/-- Consume a literal pattern case-insensitively, returning the rest. -/
def eatCi (pat s : Str) : Option Str :=
  if startsWithCi pat s then some (s.drop pat.length) else none

theorem splitAux_nil (sep : Str) (acc : Str) (fuel : Nat) :
    splitAux sep fuel [] acc = [acc.reverse] := by
  cases fuel <;> rfl

/-- Decimal digits of a natural number (JS template `${n}` for a Nat). -/
def natToStr (n : Nat) : Str := Nat.toDigits 10 n

/-- Run of characters satisfying `p` at the front, and the rest. -/
def spanP (p : Char → Bool) (s : Str) : Str × Str := (s.takeWhile p, s.dropWhile p)

/-- Digit run to a number (JS parseInt on a non-empty digit string). -/
def digitsToNat (s : Str) : Nat :=
  s.foldl (fun a c => a * 10 + (c.toNat - 48)) 0

/-! ## Node Buffer base64 model -/

/-- Value of one base64 character under Node's decoder, which accepts both
the standard and the URL-safe alphabet; every other character is skipped. -/
def b64Val (c : Char) : Option Nat :=
  if 'A' ≤ c ∧ c ≤ 'Z' then some (c.toNat - 65)
  else if 'a' ≤ c ∧ c ≤ 'z' then some (c.toNat - 71)
  else if '0' ≤ c ∧ c ≤ '9' then some (c.toNat + 4)
  else if c = '+' ∨ c = '-' then some 62
  else if c = '/' ∨ c = '_' then some 63
  else none

/-- Reassemble 6-bit groups into bytes; a trailing group of 3 (resp. 2)
sextets yields 2 (resp. 1) bytes and a lone sextet yields nothing. -/
def sextetsToBytes : List Nat → List Nat
  | a :: b :: c :: d :: rest =>
    (a * 4 + b / 16) :: ((b % 16) * 16 + c / 4) :: ((c % 4) * 64 + d) ::
      sextetsToBytes rest
  | [a, b, c] => [a * 4 + b / 16, (b % 16) * 16 + c / 4]
  | [a, b] => [a * 4 + b / 16]
  | [_] => []
  | [] => []

/-- Bytes of `Buffer.from(s, "base64")`. -/
def nodeB64Bytes (s : Str) : List Nat := sextetsToBytes (s.filterMap b64Val)

/-- UTF-8 decoding worker with U+FFFD replacement on malformed input
(Node Buffer.toString semantics); fuel bounds the byte list length. -/
def utf8Aux : Nat → List Nat → Str
  | _, [] => []
  | 0, _ => []
  | fuel + 1, b :: rest =>
    if b < 0x80 then Char.ofNat b :: utf8Aux fuel rest
    else if 0xc2 ≤ b ∧ b ≤ 0xdf then
      match rest with
      | b2 :: r2 =>
        if 0x80 ≤ b2 ∧ b2 ≤ 0xbf then
          Char.ofNat ((b - 0xc0) * 64 + (b2 - 0x80)) :: utf8Aux fuel r2
        else Char.ofNat 0xfffd :: utf8Aux fuel rest
      | [] => [Char.ofNat 0xfffd]
    else if 0xe0 ≤ b ∧ b ≤ 0xef then
      match rest with
      | b2 :: b3 :: r3 =>
        if (0x80 ≤ b2 ∧ b2 ≤ 0xbf) ∧ (0x80 ≤ b3 ∧ b3 ≤ 0xbf) ∧
            (b = 0xe0 → 0xa0 ≤ b2) ∧ (b = 0xed → b2 ≤ 0x9f) then
          Char.ofNat ((b - 0xe0) * 4096 + (b2 - 0x80) * 64 + (b3 - 0x80)) ::
            utf8Aux fuel r3
        else Char.ofNat 0xfffd :: utf8Aux fuel rest
      | _ => [Char.ofNat 0xfffd]
    else if 0xf0 ≤ b ∧ b ≤ 0xf4 then
      match rest with
      | b2 :: b3 :: b4 :: r4 =>
        if (0x80 ≤ b2 ∧ b2 ≤ 0xbf) ∧ (0x80 ≤ b3 ∧ b3 ≤ 0xbf) ∧
            (0x80 ≤ b4 ∧ b4 ≤ 0xbf) ∧ (b = 0xf0 → 0x90 ≤ b2) ∧
            (b = 0xf4 → b2 ≤ 0x8f) then
          Char.ofNat ((b - 0xf0) * 262144 + (b2 - 0x80) * 4096 +
              (b3 - 0x80) * 64 + (b4 - 0x80)) :: utf8Aux fuel r4
        else Char.ofNat 0xfffd :: utf8Aux fuel rest
      | _ => [Char.ofNat 0xfffd]
    else Char.ofNat 0xfffd :: utf8Aux fuel rest

/-- UTF-8 decoding of a byte list (Buffer.prototype.toString). -/
def utf8DecodeBytes (bs : List Nat) : Str := utf8Aux (bs.length + 1) bs

/-! ## decode-data.ts — both variants

src/src/server/gmail/decode-data.ts (err-style, four encodings) and
apps/web/app/mail/[id]/_utils/decode-data.ts (throw-style, three
encodings). Both return the decoded text; the decoded result is the UTF-8
string of the decoded bytes. -/

/-- decodeBase64 of decode-data.ts: `Buffer.from(data, "base64").toString()`. -/
def decodeBase64 (data : Str) : Str := utf8DecodeBytes (nodeB64Bytes data)

/-- The character substitution of decodeBase64Url: URL-safe alphabet back to
the standard one. -/
def substChar (c : Char) : Char :=
  if c = '-' then '+' else if c = '_' then '/' else c

/-- decodeBase64Url of decode-data.ts: substitute the URL-safe characters,
pad with `=` to a multiple of 4, then base64-decode. -/
def decodeBase64Url (base64Url : Str) : Str :=
  let base64 := base64Url.map substChar
  let padding := base64.length % 4
  let paddedBase64 :=
    if padding ≠ 0 then base64 ++ List.replicate (4 - padding) '=' else base64
  utf8DecodeBytes (nodeB64Bytes paddedBase64)

/-- decodeData of src/src/server/gmail/decode-data.ts: switch over the four
supported encodings; the default branch is `err(new Error("Unsupported
encoding"))`. The decode helpers never throw, so their try/catch wrappers
always take the ok path. -/
def decodeDataServer (data : Str) (encoding : Str) : Except JsError Str :=
  if encoding = js "base64" then .ok (decodeBase64 data)
  else if encoding = js "quoted-printable" then .ok (decodeBase64Url data)
  else if encoding = js "8bit" then .ok (decodeBase64Url data)
  else if encoding = js "7bit" then .ok (decodeBase64Url data)
  else .error (.error (js "Unsupported encoding"))

/-- decodeData of apps/web/app/mail/[id]/_utils/decode-data.ts: only three
cases; everything else (including "7bit") throws
`Unsupported encoding: ${encoding}`. -/
def decodeDataWeb (data : Str) (encoding : Str) : Except JsError Str :=
  if encoding = js "base64" then .ok (decodeBase64 data)
  else if encoding = js "quoted-printable" then .ok (decodeBase64Url data)
  else if encoding = js "8bit" then .ok (decodeBase64Url data)
  else .error (.error (js "Unsupported encoding: " ++ encoding))

/-- Success test on an embedded result. -/
def exceptIsOk {ε α : Type} (e : Except ε α) : Bool :=
  match e with
  | .ok _ => true
  | .error _ => false

instance {ε α : Type} [DecidableEq ε] [DecidableEq α] :
    DecidableEq (Except ε α) := fun x y =>
  match x, y with
  | .ok a, .ok b =>
    if h : a = b then .isTrue (by rw [h]) else
      .isFalse (fun hh => h (Except.ok.injEq .. ▸ hh))
  | .ok _, .error _ => .isFalse (fun hh => Except.noConfusion hh)
  | .error _, .ok _ => .isFalse (fun hh => Except.noConfusion hh)
  | .error a, .error b =>
    if h : a = b then .isTrue (by rw [h]) else
      .isFalse (fun hh => h (Except.error.injEq .. ▸ hh))

theorem b64Val_substChar (c : Char) : b64Val (substChar c) = b64Val c := by
  by_cases h1 : c = '-'
  · subst h1; decide
  · by_cases h2 : c = '_'
    · subst h2; decide
    · simp [substChar, h1, h2]

theorem filterMap_b64Val_replicate_eq (k : Nat) :
    List.filterMap b64Val (List.replicate k '=') = [] := by
  induction k with
  | zero => rfl
  | succ n ih => simp [List.replicate_succ, List.filterMap_cons, ih, b64Val]

/-- The URL-safe decode path is extensionally the plain Node base64 decode:
the substitution maps characters to equal-valued ones and appended padding
is skipped by the decoder. -/
theorem decodeBase64Url_eq_decodeBase64 (s : Str) :
    decodeBase64Url s = decodeBase64 s := by
  have hsub : List.filterMap b64Val (s.map substChar) =
      List.filterMap b64Val s := by
    induction s with
    | nil => rfl
    | cons c cs ih =>
      simp only [List.map_cons, List.filterMap_cons, b64Val_substChar, ih]
  simp only [decodeBase64Url, decodeBase64, nodeB64Bytes]
  by_cases h : (s.map substChar).length % 4 ≠ 0
  · rw [if_pos h, List.filterMap_append, filterMap_b64Val_replicate_eq,
      List.append_nil, hsub]
  · rw [if_neg h, hsub]

-- quick sanity checks of the decoder model
example : decodeBase64 (js "SGVsbG8=") = js "Hello" := by decide
example : decodeBase64Url (js "PGI-SGk8L2I-") = js "<b>Hi</b>" := by decide

/-- Boolean membership of a string in a list of literals (switch-case sets). -/
def strIn (s : Str) : List Str → Bool
  | [] => false
  | t :: ts => if s = t then true else strIn s ts

/-- The four encodings of the server variant's switch. -/
def serverEncodingSet : List Str :=
  [js "base64", js "quoted-printable", js "8bit", js "7bit"]

/-- The three encodings of the apps/web variant's switch. -/
def webEncodingSet : List Str :=
  [js "base64", js "quoted-printable", js "8bit"]

/-- C4 counterexample: "7bit" is inside the claimed four-element set, yet the
apps/web decodeData fails on it with an UnsupportedEncoding error instead of
returning a decoded result. -/
theorem C4_counterexample :
    strIn (js "7bit") serverEncodingSet = true ∧
    decodeDataWeb (js "SGVsbG8=") (js "7bit") =
      .error (.error (js "Unsupported encoding: 7bit")) := by
  constructor
  · decide
  · rfl

/-- C4 (amended): the server variant of decodeData succeeds exactly on
{base64, quoted-printable, 8bit, 7bit} and fails with UnsupportedEncoding
exactly outside that set; the apps/web variant succeeds exactly on
{base64, quoted-printable, 8bit} and fails with UnsupportedEncoding for
everything else, including "7bit". -/
theorem C4_decodeData_supported_sets (data encoding : Str) :
    strIn encoding serverEncodingSet = exceptIsOk (decodeDataServer data encoding) ∧
    strIn encoding webEncodingSet = exceptIsOk (decodeDataWeb data encoding) := by
  by_cases h1 : encoding = js "base64"
  · subst h1; exact ⟨rfl, rfl⟩
  · by_cases h2 : encoding = js "quoted-printable"
    · subst h2; exact ⟨rfl, rfl⟩
    · by_cases h3 : encoding = js "8bit"
      · subst h3; exact ⟨rfl, rfl⟩
      · by_cases h4 : encoding = js "7bit"
        · subst h4; exact ⟨rfl, rfl⟩
        · simp [decodeDataServer, decodeDataWeb, serverEncodingSet,
            webEncodingSet, strIn, exceptIsOk, h1, h2, h3, h4]

/-- C5 counterexample: in the apps/web variant, decodeData with "7bit" does
not produce the same output as with "base64" — it produces no output at all,
failing with UnsupportedEncoding. -/
theorem C5_counterexample :
    decodeDataWeb (js "SGVsbG8=") (js "7bit") ≠
      decodeDataWeb (js "SGVsbG8=") (js "base64") := by
  decide

/-- C5 (amended): for the server variant of decodeData, all four named
encodings (base64, quoted-printable, 8bit, 7bit) produce identical output
for every input string — the quoted-printable/8bit/7bit branches run the
URL-safe base64 decode, which is extensionally the plain base64 decode
because the underlying decoder accepts both alphabets and skips padding.
For the apps/web variant the same identity holds for base64,
quoted-printable and 8bit, while "7bit" fails with UnsupportedEncoding. -/
theorem C5_decodeData_encoding_equivalence (s : Str) :
    decodeDataServer s (js "quoted-printable") = decodeDataServer s (js "base64") ∧
    decodeDataServer s (js "8bit") = decodeDataServer s (js "base64") ∧
    decodeDataServer s (js "7bit") = decodeDataServer s (js "base64") ∧
    decodeDataWeb s (js "quoted-printable") = decodeDataWeb s (js "base64") ∧
    decodeDataWeb s (js "8bit") = decodeDataWeb s (js "base64") := by
  refine ⟨?_, ?_, ?_, ?_, ?_⟩ <;>
    simp [decodeDataServer, decodeDataWeb, decodeBase64Url_eq_decodeBase64]

/-! ## parse-headers.ts — getContentDetails

src/src/server/gmail/parse-headers.ts (err-style). The unnamed variant
(apps/web _utils/parse-headers) performs the identical scan and schema
check, differing only in throwing instead of returning the error pair and
in a smaller charset enumeration. -/

/-- One entry of a part's header list. -/
structure Header where
  name : Str
  value : Str
  deriving DecidableEq, Repr

/-- The resolved content details triple. -/
structure ContentDetails where
  charset : Str
  mimeType : Str
  encoding : Str
  deriving DecidableEq, Repr

/-- Scanner for the first match of the regex charset=([^;]+) with the i
flag: at each position, a case-insensitive "charset=" followed by a
non-empty run of non-semicolon characters; positions where the run would be
empty do not match and scanning continues. -/
def charsetCaptureAux : Nat → Str → Option Str
  | _, [] => none
  | 0, _ => none
  | fuel + 1, c :: cs =>
    if startsWithCi (js "charset=") (c :: cs) then
      let run := ((c :: cs).drop 8).takeWhile (· ≠ ';')
      if run.isEmpty then charsetCaptureAux fuel cs else some run
    else charsetCaptureAux fuel cs

/-- First capture of charset=([^;]+) case-insensitively, if any. -/
def charsetCapture (v : Str) : Option Str := charsetCaptureAux (v.length + 1) v

/-- Model of .replace with a global character class regex removing every
double or single quote. -/
def removeQuotes (s : Str) : Str := s.filter (fun c => ¬(c = '"' ∨ c = '\''))

/-- Charset as derived from one content-type header value: capture, trim,
strip quotes, lower-case. -/
def derivedCharset (v : Str) : Str :=
  lowStr (removeQuotes (jsTrim ((charsetCapture v).getD [])))

/-- MIME type as derived from one content-type header value: the trimmed
text before the first semicolon. -/
def derivedMime (v : Str) : Str := jsTrim (takeBeforeChar ';' v)

/-- Encoding as derived from one content-transfer-encoding header value. -/
def derivedEnc (v : Str) : Str := lowStr (jsTrim v)

/-- One iteration of the header scan loop of getContentDetails. -/
def gcdStep : Str × Str × Str → Header → Str × Str × Str
  | (charset, mimeType, encoding), h =>
    if lowStr h.name = js "content-type" then
      match charsetCapture h.value with
      | some cap =>
        (lowStr (removeQuotes (jsTrim cap)), derivedMime h.value, encoding)
      | none => (charset, derivedMime h.value, encoding)
    else if lowStr h.name = js "content-transfer-encoding" then
      (charset, mimeType, derivedEnc h.value)
    else (charset, mimeType, encoding)

/-- The header scan of getContentDetails, from the defaults
charset="utf-8", mimeType="", encoding="base64". -/
def scanHeaders (hs : List Header) : Str × Str × Str :=
  hs.foldl gcdStep (js "utf-8", js "", js "base64")

/-- charsetSchema of parse-headers.ts. -/
def charsetEnum : List Str :=
  [js "utf-8", js "iso-8859-1", js "windows-1252", js "us-ascii"]

/-- contentTypeSchema of parse-headers.ts. -/
def contentTypeEnum : List Str :=
  [js "text/plain", js "text/html", js "multipart/alternative",
   js "multipart/related", js "image/png"]

/-- encodingSchema of parse-headers.ts. -/
def encodingEnum : List Str :=
  [js "base64", js "quoted-printable", js "8bit", js "7bit"]

/-- Model of parsing { charset, mimeType, encoding } with
contentDetailsSchema: each field must lie in its enumeration; a failure
reports the rejected (field, value) pairs in schema field order. -/
def contentDetailsZod (c m e : Str) : Except JsError ContentDetails :=
  if strIn c charsetEnum = true ∧ strIn m contentTypeEnum = true ∧
      strIn e encodingEnum = true then
    .ok ⟨c, m, e⟩
  else
    .error (.zod
      ((if strIn c charsetEnum then [] else [(js "charset", c)]) ++
       (if strIn m contentTypeEnum then [] else [(js "mimeType", m)]) ++
       (if strIn e encodingEnum then [] else [(js "encoding", e)])))

/-- getContentDetails of parse-headers.ts. -/
def getContentDetails (headers : Option (List Header)) :
    Except JsError ContentDetails :=
  match headers with
  | none => .error (.error (js "No headers found"))
  | some hs =>
    match scanHeaders hs with
    | (c, m, e) => contentDetailsZod c m e

/-! Claim-side definitions for C6: resolution by the last matching header. -/

/-- Last element satisfying a predicate, if any. -/
def findLast {α : Type} (p : α → Bool) : List α → Option α
  | [] => none
  | x :: xs =>
    match findLast p xs with
    | some y => some y
    | none => if p x then some x else none

/-- Header name case-insensitively equal to content-type. -/
def isCTHeader (h : Header) : Bool := lowStr h.name = js "content-type"

/-- Header name case-insensitively equal to content-transfer-encoding. -/
def isCTEHeader (h : Header) : Bool :=
  lowStr h.name = js "content-transfer-encoding"

/-- Content-type header carrying a charset= parameter. -/
def hasCharsetParam (h : Header) : Bool := (charsetCapture h.value).isSome

/-- The charset demanded by last-match-wins resolution: from the last
content-type header that carries a charset parameter, defaulting to utf-8. -/
def lastCharsetOf (hs : List Header) : Str :=
  match findLast (fun h => isCTHeader h && hasCharsetParam h) hs with
  | some h => derivedCharset h.value
  | none => js "utf-8"

/-- The MIME type demanded by last-match-wins resolution: from the last
content-type header, defaulting to the empty string. -/
def lastMimeOf (hs : List Header) : Str :=
  match findLast isCTHeader hs with
  | some h => derivedMime h.value
  | none => js ""

/-- The encoding demanded by last-match-wins resolution: from the last
content-transfer-encoding header, defaulting to base64. -/
def lastEncodingOf (hs : List Header) : Str :=
  match findLast isCTEHeader hs with
  | some h => derivedEnc h.value
  | none => js "base64"

theorem foldl_gcdStep_eq (hs : List Header) :
    ∀ c m e : Str,
      hs.foldl gcdStep (c, m, e) =
        ((match findLast (fun x => isCTHeader x && hasCharsetParam x) hs with
          | some h => derivedCharset h.value
          | none => c),
         (match findLast isCTHeader hs with
          | some h => derivedMime h.value
          | none => m),
         (match findLast isCTEHeader hs with
          | some h => derivedEnc h.value
          | none => e)) := by
  induction hs with
  | nil => intro c m e; rfl
  | cons h t ih =>
    intro c m e
    rw [List.foldl_cons]
    by_cases hct : lowStr h.name = js "content-type"
    · have hcte : ¬ lowStr h.name = js "content-transfer-encoding" := by
        rw [hct]; decide
      have hctb : isCTHeader h = true := by simp [isCTHeader, hct]
      have hcteb : isCTEHeader h = false := by simp [isCTEHeader, hcte]
      cases hcap : charsetCapture h.value with
      | some cap =>
        have hg : gcdStep (c, m, e) h =
            (derivedCharset h.value, derivedMime h.value, e) := by
          simp [gcdStep, hct, hcap, derivedCharset]
        have hcapb : hasCharsetParam h = true := by
          simp [hasCharsetParam, hcap]
        rw [hg, ih]
        simp only [findLast]
        cases hf1 : findLast (fun x => isCTHeader x && hasCharsetParam x) t <;>
          cases hf2 : findLast isCTHeader t <;>
          cases hf3 : findLast isCTEHeader t <;>
          simp [hf1, hf2, hf3, hctb, hcteb, hcapb]
      | none =>
        have hg : gcdStep (c, m, e) h = (c, derivedMime h.value, e) := by
          simp [gcdStep, hct, hcap]
        have hcapb : hasCharsetParam h = false := by
          simp [hasCharsetParam, hcap]
        rw [hg, ih]
        simp only [findLast]
        cases hf1 : findLast (fun x => isCTHeader x && hasCharsetParam x) t <;>
          cases hf2 : findLast isCTHeader t <;>
          cases hf3 : findLast isCTEHeader t <;>
          simp [hf1, hf2, hf3, hctb, hcteb, hcapb]
    · have hctb : isCTHeader h = false := by simp [isCTHeader, hct]
      by_cases hcte : lowStr h.name = js "content-transfer-encoding"
      · have hcteb : isCTEHeader h = true := by simp [isCTEHeader, hcte]
        have hg : gcdStep (c, m, e) h = (c, m, derivedEnc h.value) := by
          have hne : ¬ (js "content-transfer-encoding" = js "content-type") := by
            decide
          simp [gcdStep, hct, hcte, hne]
        rw [hg, ih]
        simp only [findLast]
        cases hf1 : findLast (fun x => isCTHeader x && hasCharsetParam x) t <;>
          cases hf2 : findLast isCTHeader t <;>
          cases hf3 : findLast isCTEHeader t <;>
          simp [hf1, hf2, hf3, hctb, hcteb]
      · have hcteb : isCTEHeader h = false := by simp [isCTEHeader, hcte]
        have hg : gcdStep (c, m, e) h = (c, m, e) := by
          simp [gcdStep, hct, hcte]
        rw [hg, ih]
        simp only [findLast]
        cases hf1 : findLast (fun x => isCTHeader x && hasCharsetParam x) t <;>
          cases hf2 : findLast isCTHeader t <;>
          cases hf3 : findLast isCTEHeader t <;>
          simp [hf1, hf2, hf3, hctb, hcteb]

/-- C6: for every header list, getContentDetails resolves each field from
the last matching header in scan order — the MIME type from the last
header named content-type (case-insensitively), the encoding from the last
header named content-transfer-encoding, and the charset from the last
content-type header carrying a charset parameter — later matches
overwriting earlier ones, with the result then checked against the content
details schema. -/
theorem C6_getContentDetails_last_header_wins (hs : List Header) :
    getContentDetails (some hs) =
      contentDetailsZod (lastCharsetOf hs) (lastMimeOf hs) (lastEncodingOf hs) := by
  have hscan := foldl_gcdStep_eq hs (js "utf-8") (js "") (js "base64")
  simp only [getContentDetails, scanHeaders] at hscan ⊢
  rw [hscan]
  rfl

/-- Recogniser for the MissingHeaders failure of getContentDetails. -/
def isMissingHeadersErr (r : Except JsError ContentDetails) : Bool :=
  match r with
  | .error (.error m) => m = js "No headers found"
  | _ => false

/-- C7 counterexample: an empty header list is not a successful input of
getContentDetails — the defaults reach schema validation with an empty MIME
type, which is rejected, so the call fails rather than returning the
defaults. -/
theorem C7_counterexample :
    getContentDetails (some []) = .error (.zod [(js "mimeType", js "")]) := by
  rfl

/-- C7 (amended): getContentDetails fails with MissingHeaders exactly when
the headers argument is absent; an empty header list instead reaches the
defaulting path (charset utf-8, encoding base64) but then fails schema
validation because the empty MIME type is not in the supported set. -/
theorem C7_getContentDetails_missing_vs_empty :
    (∀ headers : Option (List Header),
      isMissingHeadersErr (getContentDetails headers) = headers.isNone) ∧
    getContentDetails (some []) = .error (.zod [(js "mimeType", js "")]) := by
  constructor
  · intro headers
    cases headers with
    | none => rfl
    | some hs =>
      simp only [getContentDetails, Option.isNone]
      rcases hscan : scanHeaders hs with ⟨c, m, e⟩
      unfold contentDetailsZod
      split <;> rfl
  · rfl

/-! ## Message part tree and get-mime-type.ts / process-message (unnamed
err-style variant, paired with the server parse-headers and decode-data) -/

/-- body of a MessagePart per MessagePartBodySchema: size, optional data,
optional attachmentId. -/
structure MessageBody where
  size : Nat
  data : Option Str
  attachmentId : Option Str
  deriving DecidableEq, Repr

mutual
/-- One node of the MIME part tree per MessagePartSchema: optional partId,
mimeType, optional filename, optional header list, optional body, optional
child list. The child list lives in a mutually defined list type so that
the tree processors are structurally recursive and kernel-computable. -/
inductive MessagePart where
  | mk (partId : Option Str) (mimeType : Str) (filename : Option Str)
      (headers : Option (List Header)) (body : Option MessageBody)
      (parts : PartsOpt)

/-- The optional parts array of a MessagePart. -/
inductive PartsOpt where
  | absent
  | arr (l : PartList)

/-- A list of child MessageParts. -/
inductive PartList where
  | nil
  | cons (hd : MessagePart) (tl : PartList)
end

def MessagePart.partId : MessagePart → Option Str
  | .mk p _ _ _ _ _ => p

def MessagePart.mimeType : MessagePart → Str
  | .mk _ m _ _ _ _ => m

def MessagePart.filename : MessagePart → Option Str
  | .mk _ _ f _ _ _ => f

def MessagePart.headers : MessagePart → Option (List Header)
  | .mk _ _ _ h _ _ => h

def MessagePart.body : MessagePart → Option MessageBody
  | .mk _ _ _ _ b _ => b

def MessagePart.parts : MessagePart → PartsOpt
  | .mk _ _ _ _ _ p => p

def PartList.toList : PartList → List MessagePart
  | .nil => []
  | .cons h t => h :: t.toList

/-- Append of child lists (for stating where a child sits in its parent). -/
def plAppend : PartList → PartList → PartList
  | .nil, l => l
  | .cons h t, l => .cons h (plAppend t l)

/-- JS truthiness of an optional string: undefined and the empty string are
falsy. -/
def truthy (s : Option Str) : Bool :=
  match s with
  | none => false
  | some t => ¬ t.isEmpty

/-- ProcessedPart: the flat output fragment {id, contentType, data}. -/
structure ProcessedPart where
  id : Str
  contentType : Str
  data : Str
  deriving DecidableEq, Repr

/-- mimeTypeSchema of get-mime-type.ts (server variant, nine types). -/
def mimeTypeEnum : List Str :=
  [js "text/plain", js "text/html", js "multipart/alternative",
   js "multipart/related", js "multipart/mixed", js "image/png",
   js "image/jpeg", js "application/pdf",
   js "application/vnd.openxmlformats-officedocument.spreadsheetml.sheet"]

/-- getMimeType of get-mime-type.ts: zod-enum parse of part.mimeType. A
failure is the zod issue carrying the rejected value (the enum is parsed on
a bare string, so the issue path is empty). -/
def getMimeType (p : MessagePart) : Except JsError Str :=
  if strIn p.mimeType mimeTypeEnum then .ok p.mimeType
  else .error (.zod [(js "", p.mimeType)])

/-- processTextPlain of the err-style process-message. -/
def processTextPlain (p : MessagePart) : Except JsError ProcessedPart :=
  match p.partId with
  | none => .error (.error (js "No partId found in text/plain"))
  | some pid =>
    if ¬ (p.mimeType = js "text/plain") then
      .error (.error (js "Mime type is not text/plain"))
    else
      match getContentDetails p.headers with
      | .error e => .error e
      | .ok cd =>
        if ¬ truthy (p.body.bind MessageBody.data) then
          .error (.error (js "No body found in text/plain"))
        else
          match decodeDataServer ((p.body.bind MessageBody.data).getD [])
              cd.encoding with
          | .error e => .error e
          | .ok decoded => .ok ⟨pid, js "text/plain", decoded⟩

/-- processTextHtml of the err-style process-message. -/
def processTextHtml (p : MessagePart) : Except JsError ProcessedPart :=
  match p.partId with
  | none => .error (.error (js "No partId found in text/html"))
  | some pid =>
    if ¬ (p.mimeType = js "text/html") then
      .error (.error (js "Mime type is not text/html"))
    else
      match getContentDetails p.headers with
      | .error e => .error e
      | .ok cd =>
        if ¬ truthy (p.body.bind MessageBody.data) then
          .error (.error (js "No body found in text/html"))
        else
          match decodeDataServer ((p.body.bind MessageBody.data).getD [])
              cd.encoding with
          | .error e => .error e
          | .ok decoded => .ok ⟨pid, js "text/html", decoded⟩

/-- processImage of the err-style process-message: requires a truthy partId
and a truthy body.attachmentId; the fragment id is the Content-ID header
value (exact-name lookup) with every angle bracket removed, defaulting to
the empty string; the contentType is always "image/png". -/
def processImage (p : MessagePart) : Except JsError ProcessedPart :=
  if ¬ truthy p.partId then
    .error (.error (js "No partId found in image/png"))
  else if ¬ truthy (p.body.bind MessageBody.attachmentId) then
    .error (.error (js "No attachmentId found in image/png"))
  else
    let cid :=
      match p.headers with
      | none => js ""
      | some hl =>
        match hl.find? (fun (h : Header) => h.name = js "Content-ID") with
        | some h => h.value
        | none => js ""
    let cidWithoutTags := cid.filter (fun c => ¬ (c = '<' ∨ c = '>'))
    .ok ⟨cidWithoutTags, js "image/png",
      (p.body.bind MessageBody.attachmentId).getD []⟩

/-- processAttachment of the err-style process-message (pdf/spreadsheet). -/
def processAttachment (p : MessagePart) : Except JsError ProcessedPart :=
  if ¬ truthy p.partId then
    .error (.error (js "No partId found in application/pdf"))
  else
    match p.body with
    | none => .error (.error (js "No body found in application/pdf"))
    | some b =>
      if ¬ truthy b.attachmentId then
        .error (.error (js "No attachmentId found in application/pdf"))
      else .ok ⟨p.partId.getD [], js "application/pdf", b.attachmentId.getD []⟩

mutual
/-- processMessagePart of the err-style process-message: classify via
getMimeType, then dispatch on the nine supported types. -/
def processMessagePart : MessagePart → Except JsError (List ProcessedPart)
  | .mk pid mt fn hdrs bd ps =>
    match getMimeType (.mk pid mt fn hdrs bd ps) with
    | .error e => .error e
    | .ok m =>
      if m = js "multipart/alternative" then
        match ps with
        | .absent => .error (.error (js "No parts found in multipart/alternative"))
        | .arr l => processAltList l
      else if m = js "multipart/related" then
        if ¬ (mt = js "multipart/related") then
          .error (.error (js "Mime type is not multipart/related"))
        else
          let contentType :=
            match hdrs with
            | none => js ""
            | some hl =>
              match hl.find? (fun (h : Header) => h.name = js "Content-Type") with
              | some h => h.value
              | none => js ""
          let mime := ((splitOnSub contentType (js ";")).map jsTrim).getD 0 []
          if ¬ (mime = js "multipart/related") then
            .error (.error
              (js "Mime type is not multipart/related in Content-Type header"))
          else
            match ps with
            | .absent => .error (.error (js "No parts found in multipart/related"))
            | .arr l => processConcatList l
      else if m = js "multipart/mixed" then
        match ps with
        | .absent => .error (.error (js "No parts found in multipart/mixed"))
        | .arr l => processConcatList l
      else if m = js "text/plain" then
        match processTextPlain (.mk pid mt fn hdrs bd ps) with
        | .error e => .error e
        | .ok d => .ok [d]
      else if m = js "text/html" then
        match processTextHtml (.mk pid mt fn hdrs bd ps) with
        | .error e => .error e
        | .ok d => .ok [d]
      else if m = js "image/png" then
        match processImage (.mk pid mt fn hdrs bd ps) with
        | .error e => .error e
        | .ok d => .ok [d]
      else if m = js "image/jpeg" then
        match processImage (.mk pid mt fn hdrs bd ps) with
        | .error e => .error e
        | .ok d => .ok [d]
      else if m = js "application/pdf" then
        match processAttachment (.mk pid mt fn hdrs bd ps) with
        | .error e => .error e
        | .ok d => .ok [d]
      else if m = js "application/vnd.openxmlformats-officedocument.spreadsheetml.sheet" then
        match processAttachment (.mk pid mt fn hdrs bd ps) with
        | .error e => .error e
        | .ok d => .ok [d]
      else .error (.error (js "Unsupported mime type"))

/-- The child loop of processMultipartAlternative: each child must have a
truthy partId before it is processed; the first error aborts. -/
def processAltList : PartList → Except JsError (List ProcessedPart)
  | .nil => .ok []
  | .cons hd tl =>
    if ¬ truthy hd.partId then
      .error (.error (js "No partId found in multipart/alternative"))
    else
      match processMessagePart hd with
      | .error e => .error e
      | .ok ds =>
        match processAltList tl with
        | .error e => .error e
        | .ok rest => .ok (ds ++ rest)

/-- The child loop of processMultipartRelated / processMultipartMixed:
process and concatenate, first error aborts. -/
def processConcatList : PartList → Except JsError (List ProcessedPart)
  | .nil => .ok []
  | .cons hd tl =>
    match processMessagePart hd with
    | .error e => .error e
    | .ok ds =>
      match processConcatList tl with
      | .error e => .error e
      | .ok rest => .ok (ds ++ rest)
end

-- kernel-computability sanity check of the tree processor
example :
    processMessagePart (.mk none (js "image/png") none
      (some [⟨js "Content-ID", js "<abc123@mail>"⟩])
      (some ⟨0, none, some (js "ATT1")⟩) .absent) =
    .error (.error (js "No partId found in image/png")) := by rfl

/-! ## C3: the image scenario -/

/-- The exact part of the claimed scenario: image/png, a Content-ID header,
an attachmentId, and no partId. -/
def c3Part : MessagePart :=
  .mk none (js "image/png") none
    (some [⟨js "Content-ID", js "<abc123@mail>"⟩])
    (some ⟨0, none, some (js "ATT1")⟩) .absent

/-- The same part with a partId present. -/
def c3PartWithId : MessagePart :=
  .mk (some (js "1")) (js "image/png") none
    (some [⟨js "Content-ID", js "<abc123@mail>"⟩])
    (some ⟨0, none, some (js "ATT1")⟩) .absent

/-- The same part with a partId but no Content-ID header. -/
def c3PartNoCid : MessagePart :=
  .mk (some (js "1")) (js "image/png") none (some [])
    (some ⟨0, none, some (js "ATT1")⟩) .absent

/-- C3 counterexample: on the claimed part — which has no partId —
processMessagePart does not return the claimed fragment; it fails with the
missing-partId error, because the image path also requires a partId. -/
theorem C3_counterexample :
    processMessagePart c3Part =
      .error (.error (js "No partId found in image/png")) := by
  rfl

/-- C3 (amended): an image part needs a truthy partId in addition to
body.attachmentId. With a partId present the part yields exactly the
fragment {id: "abc123@mail", contentType: "image/png", data: "ATT1"} — the
id being the Content-ID header value with the angle brackets stripped — and
with no Content-ID header the id defaults to the empty string. -/
theorem C3_processImage_requires_partId :
    processMessagePart c3PartWithId =
      .ok [⟨js "abc123@mail", js "image/png", js "ATT1"⟩] ∧
    processMessagePart c3PartNoCid =
      .ok [⟨js "", js "image/png", js "ATT1"⟩] := by
  exact ⟨rfl, rfl⟩

/-! ## C10: image/jpeg fragments are tagged image/png -/

theorem processImage_ok_contentType (q : MessagePart) (d : ProcessedPart)
    (h : processImage q = .ok d) : d.contentType = js "image/png" := by
  unfold processImage at h
  split at h
  · exact absurd h (by simp)
  · split at h
    · exact absurd h (by simp)
    · cases h; rfl

theorem processMessagePart_jpeg_eq (pid : Option Str) (fn : Option Str)
    (hdrs : Option (List Header)) (bd : Option MessageBody) (ps : PartsOpt) :
    processMessagePart (.mk pid (js "image/jpeg") fn hdrs bd ps) =
      match processImage (.mk pid (js "image/jpeg") fn hdrs bd ps) with
      | .error e => .error e
      | .ok d => .ok [d] := by
  rfl

/-- C10: every part whose declared mimeType is image/jpeg that processes
successfully produces a single fragment whose contentType is "image/png" —
processMessagePart routes image/jpeg through processImage, which always
tags its fragment image/png. -/
theorem C10_jpeg_fragment_is_png (p : MessagePart) (l : List ProcessedPart)
    (hm : p.mimeType = js "image/jpeg")
    (hok : processMessagePart p = .ok l) :
    ∃ f, l = [f] ∧ f.contentType = js "image/png" := by
  obtain ⟨pid, mt, fn, hdrs, bd, ps⟩ := p
  have hmt : mt = js "image/jpeg" := hm
  subst hmt
  rw [processMessagePart_jpeg_eq] at hok
  cases hpi : processImage (.mk pid (js "image/jpeg") fn hdrs bd ps) with
  | error e => rw [hpi] at hok; exact absurd hok (by simp)
  | ok d =>
    rw [hpi] at hok
    refine ⟨d, ?_, processImage_ok_contentType _ _ hpi⟩
    cases hok
    rfl

/-- A concrete image/jpeg part for the C10 witness. -/
def c10Part : MessagePart :=
  .mk (some (js "2")) (js "image/jpeg") none
    (some [⟨js "Content-ID", js "<img1@x>"⟩])
    (some ⟨0, none, some (js "A2")⟩) .absent

theorem C10_witness :
    ∃ f : ProcessedPart,
      [(⟨js "img1@x", js "image/png", js "A2"⟩ : ProcessedPart)] = [f] ∧
      f.contentType = js "image/png" :=
  C10_jpeg_fragment_is_png c10Part _ rfl rfl

/-! ## C2: multipart/alternative -/

/-- Every child of the list carries a truthy partId. -/
def plAllPartIds : PartList → Bool
  | .nil => true
  | .cons h t => truthy h.partId && plAllPartIds t

/-- A child with a partId whose own mimeType is unsupported. -/
def c2BadMimeChild : MessagePart :=
  .mk (some (js "0")) (js "application/x-unknown") none none none .absent

/-- A child with no partId at all. -/
def c2NoIdChild : MessagePart :=
  .mk none (js "text/plain") none none none .absent

/-- A multipart/alternative parent whose first child has a partId but an
unsupported mimeType, and whose second child lacks a partId. -/
def c2Parent : MessagePart :=
  .mk (some (js "p")) (js "multipart/alternative") none none none
    (.arr (.cons c2BadMimeChild (.cons c2NoIdChild .nil)))

/-- C2 counterexample: a direct child (the second) lacks a partId, yet
processMessagePart does not fail with the missing-partId error — the first
child's classification error wins, because the loop checks and processes
children in order and aborts on the first failure. -/
theorem C2_counterexample :
    c2NoIdChild.partId = none ∧
    processMessagePart c2Parent =
      .error (.zod [(js "", js "application/x-unknown")]) ∧
    (.error (.zod [(js "", js "application/x-unknown")]) :
        Except JsError (List ProcessedPart)) ≠
      .error (.error (js "No partId found in multipart/alternative")) := by
  exact ⟨rfl, rfl, by decide⟩

/-- Sequential effectful map over Except: the result list in input order,
or the first error (the claim-side statement of "recursively process each
child, first error aborts"). -/
def seqMapE {α β : Type} (f : α → Except JsError β) : List α → Except JsError (List β)
  | [] => .ok []
  | x :: xs =>
    match f x with
    | .error e => .error e
    | .ok y =>
      match seqMapE f xs with
      | .error e => .error e
      | .ok ys => .ok (y :: ys)

theorem processAltList_all_ids : ∀ l : PartList, plAllPartIds l = true →
    processAltList l = (seqMapE processMessagePart l.toList).map List.flatten
  | .nil, _ => by rfl
  | .cons h t, hall => by
    simp only [plAllPartIds, Bool.and_eq_true] at hall
    obtain ⟨hh, ht⟩ := hall
    simp only [processAltList, hh, not_true, if_neg, PartList.toList, seqMapE]
    cases hph : processMessagePart h with
    | error e => simp [Except.map]
    | ok ds =>
      rw [processAltList_all_ids t ht]
      cases hpt : seqMapE processMessagePart t.toList with
      | error e => simp [Except.map]
      | ok xs => simp [Except.map]

theorem processAltList_missing_id :
    ∀ (pre : PartList) (c : MessagePart) (rest : PartList),
    plAllPartIds pre = true →
    exceptIsOk (seqMapE processMessagePart pre.toList) = true →
    truthy c.partId = false →
    processAltList (plAppend pre (.cons c rest)) =
      .error (.error (js "No partId found in multipart/alternative"))
  | .nil, c, rest, _, _, hc => by
    simp only [plAppend, processAltList, hc]
    rfl
  | .cons h t, c, rest, hall, hok, hc => by
    simp only [plAllPartIds, Bool.and_eq_true] at hall
    obtain ⟨hh, ht⟩ := hall
    simp only [PartList.toList, seqMapE] at hok
    cases hph : processMessagePart h with
    | error e =>
      rw [hph] at hok
      simp [exceptIsOk] at hok
    | ok ds =>
      rw [hph] at hok
      simp only [plAppend, processAltList, hh, not_true, if_neg, hph]
      have hok' : exceptIsOk (seqMapE processMessagePart t.toList) = true := by
        cases hpt : seqMapE processMessagePart t.toList with
        | error e => rw [hpt] at hok; simp [exceptIsOk] at hok
        | ok xs => rfl
      rw [processAltList_missing_id t c rest ht hok' hc]
      simp

/-- C2 (amended): on a multipart/alternative part with a parts array the
processor runs the child loop; when every direct child carries a truthy
partId the result is the concatenation of the children's recursively
computed fragment lists in child order; and when a child lacking a partId
is reached — i.e. all earlier children carry partIds and process
successfully — the call fails with the missing-partId error. -/
theorem C2_multipart_alternative_children
    (pid : Option Str) (fn : Option Str) (hdrs : Option (List Header))
    (bd : Option MessageBody) :
    (∀ l : PartList,
      processMessagePart (.mk pid (js "multipart/alternative") fn hdrs bd (.arr l)) =
        processAltList l) ∧
    (∀ l : PartList, plAllPartIds l = true →
      processAltList l = (seqMapE processMessagePart l.toList).map List.flatten) ∧
    (∀ (pre : PartList) (c : MessagePart) (rest : PartList),
      plAllPartIds pre = true →
      exceptIsOk (seqMapE processMessagePart pre.toList) = true →
      truthy c.partId = false →
      processAltList (plAppend pre (.cons c rest)) =
        .error (.error (js "No partId found in multipart/alternative"))) :=
  ⟨fun _ => rfl, processAltList_all_ids, processAltList_missing_id⟩

/-- A text/plain child carrying "Hello" in base64. -/
def c2PlainChild : MessagePart :=
  .mk (some (js "0")) (js "text/plain") none
    (some [⟨js "Content-Type", js "text/plain; charset=utf-8"⟩])
    (some ⟨7, some (js "SGVsbG8="), none⟩) .absent

/-- A text/html child carrying a small HTML body in base64url. -/
def c2HtmlChild : MessagePart :=
  .mk (some (js "1")) (js "text/html") none
    (some [⟨js "Content-Type", js "text/html; charset=utf-8"⟩])
    (some ⟨9, some (js "PGI-SGk8L2I-"), none⟩) .absent

/-- The [text/plain, text/html] child list of the claimed scenario. -/
def c2GoodChildren : PartList := .cons c2PlainChild (.cons c2HtmlChild .nil)

/-- A multipart/alternative parent over the two children. -/
def c2GoodParent : MessagePart :=
  .mk (some (js "p")) (js "multipart/alternative") none none none
    (.arr c2GoodChildren)

theorem C2_witness :
    plAllPartIds c2GoodChildren = true ∧
    processMessagePart c2GoodParent =
      (seqMapE processMessagePart c2GoodChildren.toList).map List.flatten ∧
    processMessagePart c2GoodParent =
      .ok [⟨js "0", js "text/plain", js "Hello"⟩,
           ⟨js "1", js "text/html", js "<b>Hi</b>"⟩] := by
  refine ⟨by decide, ?_, by rfl⟩
  have h := C2_multipart_alternative_children (some (js "p")) none none none
  exact (h.1 c2GoodChildren).trans (h.2.1 c2GoodChildren (by decide))

/-! ## api.ts — executeBatch response parsing

The parsing phase of executeBatch in src/src/server/gmail/api.ts, as a pure
function of the multipart response text and the request boundary. The
JSON.parse branch only changes the in-memory representation of a part's
body (and, for status >= 400, copies an error object out of it); it never
affects the id, status or ordering of the returned array, so the body is
kept here as the raw trimmed text. -/

/-- A batch request as far as id synthesis is concerned. -/
structure BatchRequestM where
  method : Str
  path : Str
  id : Option Str
  deriving DecidableEq, Repr

/-- The Content-ID ids executeBatch assigns to the outgoing requests, in
caller order: the caller-supplied id, or batch-{index}. -/
def requestIds (reqs : List BatchRequestM) : List Str :=
  reqs.enum.map (fun (p : Nat × BatchRequestM) =>
    p.2.id.getD (js "batch-" ++ natToStr p.1))

/-- A parsed batch response entry. -/
structure BatchResponseM where
  id : Str
  status : Nat
  headers : List (Str × Str)
  body : Str
  deriving DecidableEq, Repr

/-- Word characters of the boundary regex character class [a-zA-Z0-9_]. -/
def isWordChar (c : Char) : Bool :=
  ('A' ≤ c ∧ c ≤ 'Z') || ('a' ≤ c ∧ c ≤ 'z') || ('0' ≤ c ∧ c ≤ '9') || c = '_'

/-- First capture of the boundary regex: two dashes followed by a non-empty
maximal run of word characters. -/
def extractBoundaryAux : Nat → Str → Option Str
  | _, [] => none
  | 0, _ => none
  | fuel + 1, c1 :: rest =>
    match rest with
    | c2 :: c3 :: _ =>
      if c1 = '-' ∧ c2 = '-' ∧ isWordChar c3 then
        some ((rest.drop 1).takeWhile isWordChar)
      else extractBoundaryAux fuel rest
    | _ => none

def extractBoundary (t : Str) : Option Str := extractBoundaryAux (t.length + 1) t

/-- Line terminators that the regex dot does not match. -/
def isLineTerm (c : Char) : Bool :=
  c = '\n' || c = '\r' || c = ' ' || c = ' '

/-- The lazy capture (.*?) up to a closing angle bracket on the same line. -/
def lazyCaptureToGt (s : Str) : Option Str :=
  let run := s.takeWhile (fun c => ¬(c = '>' || isLineTerm c))
  match s.drop run.length with
  | '>' :: _ => some run
  | _ => none

/-- First capture of the response Content-ID regex, case-insensitively. -/
def contentIdCapAux : Nat → Str → Option Str
  | _, [] => none
  | 0, _ => none
  | fuel + 1, c :: rest =>
    if startsWithCi (js "Content-ID: <response-") (c :: rest) then
      match lazyCaptureToGt ((c :: rest).drop (js "Content-ID: <response-").length) with
      | some cap => some cap
      | none => contentIdCapAux fuel rest
    else contentIdCapAux fuel rest

def contentIdCap (s : Str) : Option Str := contentIdCapAux (s.length + 1) s

def isDigitDot (c : Char) : Bool := ('0' ≤ c ∧ c ≤ '9') || c = '.'

def isDigit (c : Char) : Bool := '0' ≤ c ∧ c ≤ '9'

/-- First capture of the status-line regex HTTP/[version] space digits. -/
def statusCapAux : Nat → Str → Option Str
  | _, [] => none
  | 0, _ => none
  | fuel + 1, c :: rest =>
    if (js "HTTP/").isPrefixOf (c :: rest) then
      let after := (c :: rest).drop 5
      let run := after.takeWhile isDigitDot
      if run.isEmpty then statusCapAux fuel rest
      else
        match after.drop run.length with
        | ' ' :: tail =>
          let digits := tail.takeWhile isDigit
          if digits.isEmpty then statusCapAux fuel rest else some digits
        | _ => statusCapAux fuel rest
    else statusCapAux fuel rest

def statusCap (s : Str) : Option Str := statusCapAux (s.length + 1) s

/-- JS object property assignment obj[k] = v: update in place or append. -/
def objInsert (obj : List (Str × Str)) (k v : Str) : List (Str × Str) :=
  if (obj.find? (fun (p : Str × Str) => p.1 = k)).isSome then
    obj.map (fun (p : Str × Str) => if p.1 = k then (k, v) else p)
  else obj ++ [(k, v)]

/-- One header line of the embedded response: split at the first colon,
trim key and value; lines without a colon are skipped. -/
def addHeaderLine (obj : List (Str × Str)) (line : Str) : List (Str × Str) :=
  match indexOfSub line (js ":") with
  | none => obj
  | some i => objInsert obj (jsTrim (line.take i)) (jsTrim (line.drop (i + 1)))

/-- One part of the batch response, at loop index `i`: skip when blank or
when the embedded HTTP framing is missing; otherwise extract the id from
the Content-ID header (falling back to batch-{i-1}), the status code
(falling back to 500), the embedded headers and the trimmed body. -/
def parseBatchPart (i : Nat) (part : Str) : Option BatchResponseM :=
  if (jsTrim part).isEmpty then none
  else
    let id :=
      match contentIdCap part with
      | some c => c
      | none => js "batch-" ++ natToStr (i - 1)
    match indexOfSub part (js "HTTP/") with
    | none => none
    | some hs =>
      let status :=
        match statusCap (part.drop hs) with
        | some d => digitsToNat d
        | none => 500
      match indexOfSubFrom part (js "\r\n\r\n") hs with
      | none => none
      | some hb =>
        let headerSection := (part.take hb).drop hs
        let bodySection := part.drop (hb + 4)
        let headers :=
          ((splitOnSub headerSection (js "\r\n")).drop 1).foldl addHeaderLine []
        some ⟨id, status, headers, jsTrim bodySection⟩

/-- The response-parsing phase of executeBatch: re-read the boundary from
the response text (falling back to the request boundary), split, and parse
the interior parts in arrival order, skipping malformed ones. -/
def parseBatchResponses (responseText : Str) (reqBoundary : Str) :
    List BatchResponseM :=
  let responseBoundary := (extractBoundary responseText).getD reqBoundary
  let parts := splitOnSub responseText (js "--" ++ responseBoundary)
  let mid := (parts.drop 1).dropLast
  mid.enum.filterMap (fun (p : Nat × Str) => parseBatchPart (p.1 + 1) p.2)

/-- The two requests of the C1 failing input, with explicit ids a and b. -/
def c1Requests : List BatchRequestM :=
  [⟨js "GET", js "/messages/m1", some (js "a")⟩,
   ⟨js "GET", js "/messages/m2", some (js "b")⟩]

/-- A well-formed server response whose parts arrive permuted: the part for
request b first, then the part for request a. -/
def c1ResponseText : Str :=
  js "--B\r\nContent-Type: application/http\r\nContent-ID: <response-b>\r\n\r\nHTTP/1.1 200 OK\r\nContent-Type: text/plain\r\n\r\nbodyB\r\n--B\r\nContent-Type: application/http\r\nContent-ID: <response-a>\r\n\r\nHTTP/1.1 200 OK\r\nContent-Type: text/plain\r\n\r\nbodyA\r\n--B--"

set_option maxRecDepth 8000 in
/-- C1: executeBatch extracts each part's id from its Content-ID header but
appends responses in multipart arrival order and never reorders them into
the caller's input order — for input ids [a, b] and a server framing that
presents part b before part a, the returned array is [b, a], contradicting
the function's own contract of returning responses in request order. -/
theorem C1_executeBatch_arrival_order :
    requestIds c1Requests = [js "a", js "b"] ∧
    (parseBatchResponses c1ResponseText (js "B")).map BatchResponseM.id =
      [js "b", js "a"] ∧
    ([js "b", js "a"] : List Str) ≠ [js "a", js "b"] := by
  refine ⟨by rfl, by decide, by decide⟩

/-! ## fetch-messages.ts — rate-limit retry behaviour

fetchMessages is a network function; its control flow is embedded as a pure
interpreter over the outcomes the network hands it: the outcome of the
message-list GET, and the outcome of each batch POST attempt. Retry-After
headers are modelled already parsed to seconds (the code applies
parseInt(..., 10) and multiplies by 1000). The error/catch path (network
exceptions rather than 429 statuses) and the multipart parsing phase after
a non-429 response are outside the claim and are represented by the
`proceed` outcome. -/

/-- One entry of the message-id list. -/
structure MsgRef where
  id : Str
  threadId : Str
  deriving DecidableEq, Repr

/-- The parsed message-list response body. -/
structure MessageListData where
  messages : Option (List MsgRef)
  nextPageToken : Option Str
  resultSizeEstimate : Option Nat
  deriving DecidableEq, Repr

/-- Outcome of the list GET: a 429 with an optional Retry-After, or a
schema-valid listing. -/
inductive ListFetchOutcome where
  | rateLimited (retryAfter : Option Nat)
  | success (data : MessageListData)
  deriving DecidableEq, Repr

/-- Outcome of one batch POST attempt: a 429 with an optional Retry-After,
or any non-429 response (which breaks the retry loop). -/
inductive BatchFetchOutcome where
  | rateLimited (retryAfter : Option Nat)
  | response
  deriving DecidableEq, Repr

/-- The object fetchMessages returns on its terminal paths. -/
structure FetchResult where
  messages : List Str
  nextPageToken : Option Str
  totalMessages : Option Nat
  fetchedCount : Nat
  rateLimited : Bool
  deriving DecidableEq, Repr

/-- Result of the modelled control flow: a terminal return together with
the sleep durations (ms) performed on the way, or the exit of the retry
loop towards response parsing. -/
inductive FetchOutcome where
  | result (sleepsMs : List Nat) (r : FetchResult)
  | proceed (sleepsMs : List Nat)
  deriving DecidableEq, Repr

/-- The batch wait: Retry-After seconds times 1000 when present, else the
exponential 2^(retryCount+1) seconds. -/
def backoffWait (ras : Nat → Option Nat) (i : Nat) : Nat :=
  match ras i with
  | some r => r * 1000
  | none => 2 ^ (i + 1) * 1000

/-- The list-request wait: Retry-After seconds times 1000 when present,
else a flat 2000 ms. -/
def listWait (ra : Option Nat) : Nat :=
  match ra with
  | some r => r * 1000
  | none => 2000

/-- The while-loop of the batch fetch: while retryCount <= MAX_RETRIES (3),
fetch; on a 429 sleep, increment, and return the rate-limited terminal
result once the ceiling is exceeded; on any other response break out. Fuel
5 covers every reachable iteration. -/
def batchRetryLoop (d : MessageListData) (outcomes : Nat → BatchFetchOutcome) :
    Nat → Nat → List Nat → FetchOutcome
  | 0, _, sleeps => .proceed sleeps
  | fuel + 1, rc, sleeps =>
    if rc ≤ 3 then
      match outcomes rc with
      | .rateLimited ra =>
        let waitTime :=
          match ra with
          | some r => r * 1000
          | none => 2 ^ (rc + 1) * 1000
        let sleeps' := sleeps ++ [waitTime]
        if rc + 1 > 3 then
          .result sleeps' ⟨[], d.nextPageToken, d.resultSizeEstimate, 0, true⟩
        else batchRetryLoop d outcomes fuel (rc + 1) sleeps'
      | .response => .proceed sleeps
    else .proceed sleeps

/-- The control flow of fetchMessages: a 429 on the list request sleeps
once and returns the empty result with an *undefined* cursor; a listing
with no messages returns the listing's own nextPageToken; otherwise the
batch retry loop runs. -/
def fetchMessagesModel (pageToken : Option Str) (listOutcome : ListFetchOutcome)
    (batchOutcomes : Nat → BatchFetchOutcome) : FetchOutcome :=
  match listOutcome with
  | .rateLimited ra => .result [listWait ra] ⟨[], none, some 0, 0, true⟩
  | .success d =>
    match d.messages with
    | none => .result [] ⟨[], d.nextPageToken, d.resultSizeEstimate, 0, false⟩
    | some [] => .result [] ⟨[], d.nextPageToken, d.resultSizeEstimate, 0, false⟩
    | some (_ :: _) => batchRetryLoop d batchOutcomes 5 0 []

/-- C8 counterexample: with cursor "A" passed in, a listing whose next page
token is "B", and four straight 429s, the terminal result's cursor is "B" —
the fresh token of the just-fetched list — not the cursor "A" that was
passed in. (A 429 on the list request itself even returns an undefined
cursor.) -/
theorem C8_counterexample :
    fetchMessagesModel (some (js "A"))
      (.success ⟨some [⟨js "m1", js "t1"⟩], some (js "B"), some 5⟩)
      (fun _ => .rateLimited none) =
      .result [2000, 4000, 8000, 16000]
        ⟨[], some (js "B"), some 5, 0, true⟩ ∧
    (some (js "B") : Option Str) ≠ some (js "A") ∧
    fetchMessagesModel (some (js "A")) (.rateLimited none) (fun _ => .response) =
      .result [2000] ⟨[], none, some 0, 0, true⟩ := by
  refine ⟨rfl, by decide, rfl⟩

/-- C8 (amended): when every batch attempt is a 429, fetchMessages sleeps
exactly four times — each wait being Retry-After * 1000 ms when that header
is present (hence at least the Retry-After duration), else the exponential
2^(attempt+1) seconds — and its terminal result carries an empty message
set, the rateLimited flag, and the nextPageToken of the *list response*,
not the cursor that was passed in; a 429 on the list request itself sleeps
once (Retry-After * 1000 or a flat 2000 ms) and returns an empty result
with an undefined cursor. -/
theorem C8_fetchMessages_retry_exhaustion
    (pageToken nextTok : Option Str) (est : Option Nat)
    (m : MsgRef) (ms : List MsgRef) (ras : Nat → Option Nat)
    (ra : Option Nat) (bo : Nat → BatchFetchOutcome) :
    (fetchMessagesModel pageToken (.success ⟨some (m :: ms), nextTok, est⟩)
        (fun i => .rateLimited (ras i)) =
      .result [backoffWait ras 0, backoffWait ras 1, backoffWait ras 2,
          backoffWait ras 3]
        ⟨[], nextTok, est, 0, true⟩) ∧
    (∀ i r, ras i = some r → backoffWait ras i = r * 1000) ∧
    (fetchMessagesModel pageToken (.rateLimited ra) bo =
      .result [listWait ra] ⟨[], none, some 0, 0, true⟩) := by
  refine ⟨rfl, ?_, rfl⟩
  intro i r hr
  simp [backoffWait, hr]

theorem C8_witness :
    fetchMessagesModel (some (js "A"))
      (.success ⟨some [⟨js "m1", js "t1"⟩], some (js "B"), some 5⟩)
      (fun _ => .rateLimited (some 2)) =
      .result [2000, 2000, 2000, 2000]
        ⟨[], some (js "B"), some 5, 0, true⟩ ∧
    backoffWait (fun _ => some 2) 0 = 2 * 1000 := by
  have h := C8_fetchMessages_retry_exhaustion (some (js "A")) (some (js "B"))
    (some 5) ⟨js "m1", js "t1"⟩ [] (fun _ => some 2) none (fun _ => .response)
  exact ⟨h.1, h.2.1 0 2 rfl⟩

/-! ## full-message.tsx — replaceInlineAttachments

The cid-reference rewriter of the unnamed full-message component. The
regexes it builds per content-id are embedded as explicit matchers with JS
global-replace semantics: scan left to right, replace non-overlapping
matches, resume after each match. escapeRegExp makes the content-id a
literal in the source; the matchers here treat it literally by
construction. The Map is modelled as its (cid, dataUri) entries in
insertion order. -/

/-- Characters encodeURIComponent leaves unescaped. -/
def isUnreservedUri (c : Char) : Bool :=
  ('A' ≤ c ∧ c ≤ 'Z') || ('a' ≤ c ∧ c ≤ 'z') || ('0' ≤ c ∧ c ≤ '9') ||
  c = '-' || c = '_' || c = '.' || c = '!' || c = '~' || c = '*' ||
  c = '\'' || c = '(' || c = ')'

/-- UTF-8 bytes of one character. -/
def utf8EncodeChar (c : Char) : List Nat :=
  let n := c.toNat
  if n < 0x80 then [n]
  else if n < 0x800 then [0xc0 + n / 64, 0x80 + n % 64]
  else if n < 0x10000 then
    [0xe0 + n / 4096, 0x80 + (n / 64) % 64, 0x80 + n % 64]
  else
    [0xf0 + n / 262144, 0x80 + (n / 4096) % 64, 0x80 + (n / 64) % 64,
     0x80 + n % 64]

/-- Upper-case hexadecimal digit. -/
def hexUpper (n : Nat) : Char := (js "0123456789ABCDEF").getD n '0'

/-- Percent-encoding of one character. -/
def encChar (c : Char) : Str :=
  if isUnreservedUri c then [c]
  else ((utf8EncodeChar c).map
    (fun b => ['%', hexUpper (b / 16), hexUpper (b % 16)])).flatten

/-- Model of encodeURIComponent. -/
def encodeURIComponent (s : Str) : Str := (s.map encChar).flatten

/-- JS global replace: a matcher inspects the suffix at the current
position and yields (consumed length, replacement); scanning resumes after
each replacement. Also reports whether anything was replaced. -/
def replaceGAux (m : Str → Option (Nat × Str)) : Nat → Str → Str × Bool
  | _, [] => ([], false)
  | 0, rest => (rest, false)
  | fuel + 1, c :: cs =>
    match m (c :: cs) with
    | some (n, repl) =>
      if n = 0 then
        let r := replaceGAux m fuel cs
        (c :: r.1, true)
      else
        let r := replaceGAux m fuel (cs.drop (n - 1))
        (repl ++ r.1, true)
    | none =>
      let r := replaceGAux m fuel cs
      (c :: r.1, r.2)

def replaceG (m : Str → Option (Nat × Str)) (s : Str) : Str × Bool :=
  replaceGAux m (s.length + 1) s

/-- Match cid:CID (case-insensitively) followed by the closing quote when
one was opened; returns the remaining suffix. -/
def matchCidClose (cid : Str) (q : Option Char) (r : Str) : Option Str :=
  match eatCi (js "cid:" ++ cid) r with
  | none => none
  | some r2 =>
    match q with
    | none => some r2
    | some qc =>
      match r2 with
      | c :: r3 => if c = qc then some r3 else none
      | [] => none

/-- Matcher for (src|background)=(["']?)cid:CID\2 with the gi flags: the
attribute text is captured as matched (case preserved), the optional quote
is tried greedily, and the replacement is attr=quote dataUri quote. -/
def srcBgMatcher (cid dataUri : Str) (s : Str) : Option (Nat × Str) :=
  let tryAttr (a : Str) : Option (Nat × Str) :=
    if startsWithCi a s then
      let attrTxt := s.take a.length
      match s.drop a.length with
      | '=' :: r1 =>
        let cand : Option (Option Char × Str) :=
          match r1 with
          | c :: cs =>
            if c = '"' ∨ c = '\'' then
              match matchCidClose cid (some c) cs with
              | some rem => some (some c, rem)
              | none =>
                match matchCidClose cid none r1 with
                | some rem => some (none, rem)
                | none => none
            else
              match matchCidClose cid none r1 with
              | some rem => some (none, rem)
              | none => none
          | [] => none
        match cand with
        | some (q, rem) =>
          let quote := match q with | some qc => [qc] | none => []
          some (s.length - rem.length,
            attrTxt ++ ['='] ++ quote ++ dataUri ++ quote)
        | none => none
      | _ => none
    else none
  match tryAttr (js "src") with
  | some r => some r
  | none => tryAttr (js "background")

/-- Matcher for a literal pattern with the gi flags (the URL-encoded cid
replacement). -/
def litCiMatcher (pat repl : Str) (s : Str) : Option (Nat × Str) :=
  if ¬ pat.isEmpty ∧ startsWithCi pat s then some (pat.length, repl) else none

/-- Matcher for url\((['"]?)cid:CID\1\) with the gi flags. -/
def urlMatcher (cid dataUri : Str) (s : Str) : Option (Nat × Str) :=
  if startsWithCi (js "url(") s then
    let r1 := s.drop 4
    let closeParen : Option Str → Option Str := fun r =>
      match r with
      | some (')' :: r4) => some r4
      | _ => none
    let cand : Option Str :=
      match r1 with
      | c :: cs =>
        if c = '\'' ∨ c = '"' then
          match closeParen (matchCidClose cid (some c) cs) with
          | some rem => some rem
          | none => closeParen (matchCidClose cid none r1)
        else closeParen (matchCidClose cid none r1)
      | [] => none
    match cand with
    | some rem => some (s.length - rem.length, js "url(" ++ dataUri ++ js ")")
    | none => none
  else none

/-- The per-content-id replacement block of replaceInlineAttachments: the
attribute patterns (domain-less retry when nothing matched and the cid has
an @domain suffix), the URL-encoded literal, and the url(...) patterns. -/
def replacePerCid (content : Str) (cid dataUri : Str) : Str :=
  let atIndex := indexOfSub cid (js "@")
  let atPos : Bool := match atIndex with | some n => decide (0 < n) | none => false
  let cidNoDomain :=
    match atIndex with
    | some n => if 0 < n then cid.take n else cid
    | none => cid
  let r1 := replaceG (srcBgMatcher cid dataUri) content
  let c2 := if ¬ r1.2 ∧ atPos then (replaceG (srcBgMatcher cidNoDomain dataUri) r1.1).1 else r1.1
  let c3 := (replaceG (litCiMatcher (encodeURIComponent (js "cid:" ++ cid)) dataUri) c2).1
  let c4 := (replaceG (urlMatcher cid dataUri) c3).1
  if atPos then (replaceG (urlMatcher cidNoDomain dataUri) c4).1 else c4

/-- replaceInlineAttachments: unchanged HTML for an empty mapping, else one
replacement block per mapping entry in insertion order. -/
def replaceInlineAttachments (htmlContent : Str)
    (attachments : List (Str × Str)) : Str :=
  if attachments.isEmpty then htmlContent
  else attachments.foldl
    (fun content (p : Str × Str) => replacePerCid content p.1 p.2) htmlContent

/-- The C9 mapping: content-id a resolved to a syntactically valid data URI
that itself contains the URL-encoded reference cid%3Aa. -/
def c9Map : List (Str × Str) := [(js "a", js "data:text/html,cid%3Aa")]

/-- C9 counterexample: the resolver is not idempotent for every mapping —
with the mapping {a : "data:text/html,cid%3Aa"} and HTML "cid%3Aa", the
first run produces the data URI and the second run rewrites the cid%3Aa
inside it again, giving a different output. -/
theorem C9_counterexample :
    replaceInlineAttachments (js "cid%3Aa") c9Map =
      js "data:text/html,cid%3Aa" ∧
    replaceInlineAttachments (replaceInlineAttachments (js "cid%3Aa") c9Map)
        c9Map =
      js "data:text/html,data:text/html,cid%3Aa" ∧
    replaceInlineAttachments (replaceInlineAttachments (js "cid%3Aa") c9Map)
        c9Map ≠
      replaceInlineAttachments (js "cid%3Aa") c9Map := by
  refine ⟨by decide, by decide, by decide⟩

/-- C9 (amended): with an empty mapping the resolver returns the HTML
unchanged from its input, and is therefore idempotent there; idempotence
does not hold for arbitrary mappings (see the counterexample, where a
mapping value contains a rewritable cid reference). -/
theorem C9_empty_map_identity (html : Str) :
    replaceInlineAttachments html [] = html ∧
    replaceInlineAttachments (replaceInlineAttachments html []) [] =
      replaceInlineAttachments html [] := by
  exact ⟨rfl, rfl⟩
